/-
Verification of the GraphRAG agentic-RAG pipeline (chatbot + tools).

Shallow embedding of the Python sources:
  * src/graph_nodes.py : retrieval and grading tools
  * src/chatbot.py     : GraphRAGChatbot.build_workflow / GraphRAGChatbot.ask
  * src/graph_state.py : AgentState with the add_messages reducer

Backends (graph store, vector index, web-search client, LLM graders) are
opaque services; they are embedded as functions returning `Except String α`
so that a raised exception is an explicit `error` value.  The tools
themselves catch those exceptions, so their Lean embeddings are total
functions returning plain lists / strings: "never raises to the caller"
is reflected in the return type.
-/

import Mathlib

namespace GraphRAG

/-- Values stored in the flat result records the tools return
(Python dict values: strings or lists of strings in the queries at hand). -/
inductive Val where
  | s : String → Val
  | arr : List String → Val
deriving DecidableEq, Repr

/-- A flat field-to-value record (a Python dict). -/
abbrev Record := List (String × Val)

/-- `dict.get(k, default)` for string-valued fields; a non-string value under
the key behaves like the default for the string uses in the source. -/
def getStr (m : Record) (k d : String) : String :=
  match m.find? (fun p => p.1 == k) with
  | some (_, Val.s v) => v
  | _ => d

/-- `d.get("content", "") or d.get("page_content", "")` from the source:
Python `or` falls through on the empty (falsy) string. -/
def docContent (d : Record) : String :=
  let c := getStr d "content" ""
  if c ≠ "" then c else getStr d "page_content" ""

/-! ## Graders (src/graders.py)

A grader chain is an opaque function from its inputs to a `binary_score`
string; invocation may raise, hence `Except`. -/

/-- Relevance grader: (question, document) → binary_score. -/
abbrev RelevanceGrader := String → String → Except String String

/-- Hallucination grader: (documents context, generation) → binary_score. -/
abbrev HallucinationGrader := String → String → Except String String

/-- Usefulness grader: (question, generation) → binary_score. -/
abbrev UsefulnessGrader := String → String → Except String String

/-! ## grade_documents_tool (src/graph_nodes.py lines 40-66) -/

/-- The per-document loop body of `grade_documents_tool`: a document with
empty extracted content is skipped; otherwise the grader is invoked and the
document is kept on score "yes" or when the grader raises. -/
def gradeDocsGo (g : RelevanceGrader) (question : String) :
    List Record → List Record
  | [] => []
  | d :: ds =>
      let content := docContent d
      if content = "" then gradeDocsGo g question ds
      else
        match g question content with
        | Except.ok score =>
            if score = "yes" then d :: gradeDocsGo g question ds
            else gradeDocsGo g question ds
        | Except.error _ => d :: gradeDocsGo g question ds

/-- `grade_documents_tool(documents, question, relevance_grader)`.
With no grader (or an empty list: `if not relevance_grader or not documents`)
the input is returned unchanged; the outer try/except of the source can only
be reached by failures the embedding cannot produce (the per-document
grading failure is already caught inside the loop). -/
def grade_documents_tool (documents : List Record) (question : String)
    (relevance_grader : Option RelevanceGrader) : List Record :=
  match relevance_grader with
  | none => documents
  | some g =>
      if documents.isEmpty then documents
      else gradeDocsGo g question documents

/-- The keep-decision of the grading loop, as a boolean predicate. -/
def keepDoc (g : RelevanceGrader) (question : String) (d : Record) : Bool :=
  let content := docContent d
  if content = "" then false
  else
    match g question content with
    | Except.ok score => score == "yes"
    | Except.error _ => true

/-! ## grade_answer_tool (src/graph_nodes.py lines 69-105) -/

/-- The concatenated non-empty document contents used as the hallucination
check's context. -/
def docContext (documents : List Record) : String :=
  String.intercalate "\n\n" ((documents.map docContent).filter (fun c => c ≠ ""))

/-- `grade_answer_tool(generation, documents, question, hallucination_grader,
usefulness_grader)`.  Returns "utile" when both graders are unavailable or
either raises; "non supportato" when the hallucination grader answers 'no';
"non utile" when the usefulness grader answers 'no'. -/
def grade_answer_tool (generation : String) (documents : List Record)
    (question : String) (hallucination_grader : Option HallucinationGrader)
    (usefulness_grader : Option UsefulnessGrader) : String :=
  match hallucination_grader, usefulness_grader with
  | some hg, some ug =>
      match hg (docContext documents) generation with
      | Except.error _ => "utile"
      | Except.ok hscore =>
          if hscore = "no" then "non supportato"
          else
            match ug question generation with
            | Except.error _ => "utile"
            | Except.ok uscore =>
                if uscore = "no" then "non utile" else "utile"
  | _, _ => "utile"

/-! ## Retrieval backends -/

/-- A match returned by `vector_store.similarity_search`. -/
structure VDoc where
  page_content : String
  metadata : List (String × String)
deriving DecidableEq, Repr

/-- The vector/keyword index: `similarity_search(query, k)`;
a live call may raise. -/
structure VectorStore where
  search : String → Nat → Except String (List VDoc)

/-- The graph store, specialised to the two fixed read-only Cypher queries
the tools issue: `related doc_id` runs the one-hop related-context query of
`hybrid_search_tool`, `fallback query` runs the substring-match fallback
query of `structured_query_tool`.  Either call may raise. -/
structure Graph where
  related : String → Except String (List Record)
  fallback : String → Except String (List Record)

/-- The GraphCypherQAChain: `invoke({"query": q})` produces a result string
or raises. -/
abbrev QAChain := String → Except String String

/-- The Tavily web-search client: `search(query, max_results, search_depth)`;
`ok none` models a response dict without a "results" key. -/
structure Tavily where
  search : String → Nat → String → Except String (Option (List Record))

/-! ## hybrid_search_tool (src/graph_nodes.py lines 108-173) -/

/-- A hybrid-search result: the enhanced dict `{"content", "metadata"}` with
the optional `"related_context"` key as an `Option`. -/
structure EnhancedDoc where
  content : String
  metadata : List (String × String)
  related_context : Option Record
deriving DecidableEq, Repr

/-- `doc.metadata.get('id') or doc.metadata.get('source', '')`:
a missing or empty (falsy) `id` falls through to `source`. -/
def docIdOf (md : List (String × String)) : String :=
  let i := (md.find? (fun p => p.1 == "id")).elim "" (fun p => p.2)
  if i ≠ "" then i
  else (md.find? (fun p => p.1 == "source")).elim "" (fun p => p.2)

/-- The best-effort one-hop enrichment of `hybrid_search_tool`: the first
record of the related-context query when the graph is available, the doc id
non-empty (truthy) and the query succeeds with a non-empty result; `none`
otherwise (a raised graph error is swallowed). -/
def relatedContext (graph : Option Graph) (d : VDoc) : Option Record :=
  match graph with
  | none => none
  | some g =>
      let doc_id := docIdOf d.metadata
      if doc_id = "" then none
      else
        match g.related doc_id with
        | Except.error _ => none
        | Except.ok [] => none
        | Except.ok (r :: _) => some r

/-- The per-match step of `hybrid_search_tool`: the base dict
`{"content", "metadata"}` plus the optional `"related_context"` key. -/
def enhanceDoc (graph : Option Graph) (d : VDoc) : EnhancedDoc :=
  ⟨d.page_content, d.metadata, relatedContext graph d⟩

/-- `hybrid_search_tool(query)` with injected `vector_store` and `graph`:
no store → `[]`; a raised search → `[]`; otherwise the k=3 similarity
matches, each enhanced best-effort with one-hop graph context. -/
def hybrid_search_tool (vector_store : Option VectorStore)
    (graph : Option Graph) (query : String) : List EnhancedDoc :=
  match vector_store with
  | none => []
  | some vs =>
      match vs.search query 3 with
      | Except.error _ => []
      | Except.ok results => results.map (enhanceDoc graph)

/-! ## structured_query_tool (src/graph_nodes.py lines 175-223) -/

/-- An entity node of the graph store (fields used by the fallback query). -/
structure Entity where
  name : String
  description : String
  etype : String
deriving DecidableEq, Repr

/-- Case-insensitive `CONTAINS` on already-lowered strings. -/
def strContains (s pat : String) : Bool :=
  if pat.isEmpty then true else (s.splitOn pat).length != 1

/-- The record the fallback Cypher query returns for one entity:
`RETURN e.type as type, e.name as name, e.description as description`. -/
def entityRecord (e : Entity) : Record :=
  [("type", Val.s e.etype), ("name", Val.s e.name),
   ("description", Val.s e.description)]

/-- Reference semantics of the fallback Cypher query of
`structured_query_tool` over an entity store: substring match (lowered)
against name/description, `LIMIT 5`. -/
def substringFallback (entities : List Entity) (query : String) :
    List Record :=
  ((entities.filter (fun e =>
      strContains e.name.toLower query.toLower ||
      strContains e.description.toLower query.toLower)).map
    entityRecord).take 5

/-- `structured_query_tool(query)` with injected `graph_qa_chain` and
`graph`.  A `none` chain behaves like the source's `None.invoke` raising:
the inner except path runs the fallback when the graph is available; a
raised fallback is caught by the outer except, returning `[]`.
`dict(record)` is the identity on the flat records of the embedding. -/
def structured_query_tool (graph_qa_chain : Option QAChain)
    (graph : Option Graph) (query : String) : List Record :=
  if graph_qa_chain.isNone && graph.isNone then []
  else
    let primary : Except String String :=
      match graph_qa_chain with
      | none => Except.error "NoneType has no attribute invoke"
      | some chain => chain query
    match primary with
    | Except.ok result =>
        [[("question", Val.s query), ("result", Val.s result)]]
    | Except.error _ =>
        match graph with
        | none => []
        | some g =>
            match g.fallback query with
            | Except.error _ => []
            | Except.ok results => results

/-! ## web_search_tool (src/graph_nodes.py lines 225-268) -/

/-- `web_search_tool(query)` with injected `tavily_client`: no client or a
raised/`results`-less response → `[]`; otherwise each raw result is
reshaped to `{"content", "url", "title"}` with empty-string defaults. -/
def web_search_tool (tavily_client : Option Tavily) (query : String) :
    List Record :=
  match tavily_client with
  | none => []
  | some c =>
      match c.search query 3 "advanced" with
      | Except.error _ => []
      | Except.ok none => []
      | Except.ok (some results) =>
          results.map (fun r =>
            [("content", Val.s (getStr r "content" "")),
             ("url", Val.s (getStr r "url" "")),
             ("title", Val.s (getStr r "title" ""))])

/-! ## GraphRAGChatbot.ask (src/chatbot.py lines 293-317) -/

/-- A message of the final state as `ask` inspects it: either a structured
message object exposing a `content` attribute, or a plain dict (which may or
may not have a `"content"` key). -/
inductive RawMsg where
  | structuredMsg : String → RawMsg
  | mappingMsg : List (String × String) → RawMsg
deriving DecidableEq, Repr

/-- The answer-extraction step of `ask`: `none` when the message list is
empty, or when the last message is a dict without a `"content"` key. -/
def extractAnswer (msgs : List RawMsg) : Option String :=
  match msgs.getLast? with
  | none => none
  | some (RawMsg.structuredMsg c) => some c
  | some (RawMsg.mappingMsg fields) =>
      (fields.find? (fun p => p.1 == "content")).map (fun p => p.2)

/-- The fixed degraded-service answer of `ask`. -/
def insufficientMsg : String :=
  "Mi dispiace, non sono riuscito a generare una risposta."

/-- The fixed generic error answer of `ask`. -/
def genericErrorMsg : String :=
  "Mi dispiace, si è verificato un errore nel processare la tua domanda."

/-- `GraphRAGChatbot.ask(question)`.  `run` stands for the body of the try
block up to the final state (build_workflow + app.invoke); a raised
exception anywhere inside is the `error` case. -/
def ask (run : String → Except String (List RawMsg)) (question : String) :
    String :=
  match run question with
  | Except.error _ => genericErrorMsg
  | Except.ok msgs =>
      match extractAnswer msgs with
      | some c => c
      | none => insufficientMsg

/-! ## The Agent Loop (src/chatbot.py build_workflow, src/graph_state.py)

The workflow wiring is in the source: entry point `agent`, conditional edge
`tools_condition` (tools when the last response carries tool calls, END
otherwise), unconditional edge `tools → agent`.  The driver that executes
the compiled StateGraph, and its iteration (recursion) cap, live in the
LangGraph library, outside this repository.

Modelled from the spec: the loop driver of §4.3 — invoke the model on the
running history, stop on a tool-call-free response, otherwise execute every
requested tool, append the results and loop — bounded by the configured
iteration cap, exhaustion of which stops the run with an error (`none`)
instead of a terminal message.  `add_messages` is embedded as list append,
per its description in src/graph_state.py ("a reducer that appends new
messages to the existing list"). -/

/-- A tool-call request inside an assistant message. -/
structure ToolCall where
  callId : String
  name : String
  args : String
deriving DecidableEq, Repr

/-- Message roles in the agent state. -/
inductive MRole where
  | user
  | assistant
  | tool
deriving DecidableEq, Repr

/-- A message of the agent state: role, content, tool-call requests
(assistant turns), and the correlating call id (tool results). -/
structure Msg where
  role : MRole
  content : String
  tool_calls : List ToolCall
  tool_call_id : Option String
deriving DecidableEq, Repr

/-- The model behind `agent_node`: full history in, one response out. -/
abbrev Model := List Msg → Msg

/-- The tool executor behind `ToolNode`: (tool name, args) → serialized
result string (every tool of the registry is fail-open, so execution of one
call is total). -/
abbrev ToolExec := String → String → String

/-- `ToolNode`'s message for one tool call: a tool-result message
correlated by the call id, with no tool calls of its own. -/
def execToolCall (tools : ToolExec) (c : ToolCall) : Msg :=
  ⟨MRole.tool, tools c.name c.args, [], some c.callId⟩

/-- One reasoning-plus-tools iteration appends the response and one result
per requested call; this is the history the next reasoning step sees. -/
def stepHistory (tools : ToolExec) (hist : List Msg) (resp : Msg) :
    List Msg :=
  (hist ++ [resp]) ++ resp.tool_calls.map (execToolCall tools)

/-- The bounded agent loop: `some finalHistory` when a tool-call-free
response is reached within `fuel` iterations, `none` when the iteration cap
is exhausted (the library raises a recursion-limit error there, which
`ask` catches). -/
def runLoop (model : Model) (tools : ToolExec) :
    Nat → List Msg → Option (List Msg)
  | 0, _ => none
  | fuel + 1, hist =>
      let resp := model hist
      if resp.tool_calls.isEmpty then some (hist ++ [resp])
      else runLoop model tools fuel (stepHistory tools hist resp)

/-- The histories on which the Reasoning Node (the model) is invoked during
a run, in order. -/
def loopInvocations (model : Model) (tools : ToolExec) :
    Nat → List Msg → List (List Msg)
  | 0, _ => []
  | fuel + 1, hist =>
      let resp := model hist
      if resp.tool_calls.isEmpty then [hist]
      else hist :: loopInvocations model tools fuel (stepHistory tools hist resp)

/-- Number of assistant turns in a history (the position of the next model
response in a response sequence). -/
def assistantCount (h : List Msg) : Nat :=
  h.countP (fun m => m.role == MRole.assistant)

/-- A model given by a finite sequence of responses: the i-th assistant
turn returns the i-th sequence element (the default `d` past the end),
forced to the assistant role. -/
def modelFromList (rs : List Msg) (d : Msg) : Model :=
  fun hist => { rs.getD (assistantCount hist) d with role := MRole.assistant }

/-- Every tool-call request of every message in the history already has a
correlated tool-result message in the history. -/
def allResolved (h : List Msg) : Prop :=
  ∀ m ∈ h, ∀ c ∈ m.tool_calls, ∃ t ∈ h, t.tool_call_id = some c.callId

/-! ## Concrete fixtures (used to instantiate the theorems) -/

/-- A user message seeding the history, as `ask` builds it. -/
def userMsg (q : String) : Msg := ⟨MRole.user, q, [], none⟩

/-- An assistant response requesting one tool call. -/
def toolReq : Msg :=
  ⟨MRole.assistant, "", [⟨"call_1", "hybrid_search_tool", "privacy"⟩], none⟩

/-- A terminal (tool-call-free) assistant response. -/
def termResp : Msg := ⟨MRole.assistant, "final answer", [], none⟩

/-- A tool executor answering every call with an empty serialized list. -/
def noTools : ToolExec := fun _ _ => "[]"

/-- A finite response sequence: 25 tool-requesting turns, then a terminal
one. -/
def loopTrace : List Msg := List.replicate 25 toolReq ++ [termResp]

/-- The single fallback record of the structured-query scenario. -/
def testRecord : Record :=
  [("name", Val.s "Test"), ("type", Val.s "Entity"),
   ("description", Val.s "...")]

/-- A primary query chain that raises. -/
def failingChain : QAChain := fun _ => Except.error "translation failed"

/-- A mocked graph returning `[testRecord]` for the fallback query. -/
def testGraph : Graph :=
  ⟨fun _ => Except.ok [], fun _ => Except.ok [testRecord]⟩

/-- The single related-entity record of the hybrid-search scenario. -/
def relRecord : Record :=
  [("document_name", Val.s "doc1"),
   ("related_entities", Val.arr ["GDPR"]),
   ("entity_types", Val.arr ["FonteNormativa"])]

/-- A mocked index match with `metadata = {"id": "doc1"}`. -/
def testVDoc : VDoc := ⟨"some text", [("id", "doc1")]⟩

/-- A mocked vector store returning the single match. -/
def testStore : VectorStore := ⟨fun _ _ => Except.ok [testVDoc]⟩

/-- A mocked graph returning `[relRecord]` for the related-context query. -/
def enrichGraph : Graph :=
  ⟨fun _ => Except.ok [relRecord], fun _ => Except.ok []⟩

/-- A grader chain always scoring "yes". -/
def yesGrader : RelevanceGrader := fun _ _ => Except.ok "yes"

/-- A grader chain always scoring "no". -/
def noGrader : RelevanceGrader := fun _ _ => Except.ok "no"

/-- A grader chain that always raises. -/
def errGrader : RelevanceGrader := fun _ _ => Except.error "grader down"

/-- A document with non-empty content. -/
def testDoc : Record := [("content", Val.s "body")]

/-- A document whose content is empty under both keys. -/
def emptyDoc : Record := [("content", Val.s "")]

/-- A loop run ending in a structured message with content "X". -/
def okRunStructured : String → Except String (List RawMsg) :=
  fun _ => Except.ok [RawMsg.structuredMsg "X"]

/-- A loop run ending in a plain mapping with a "content" key "X". -/
def okRunMapping : String → Except String (List RawMsg) :=
  fun _ => Except.ok [RawMsg.mappingMsg [("content", "X")]]

/-- A loop whose construction raises. -/
def errRun : String → Except String (List RawMsg) :=
  fun _ => Except.error "infrastructure failure"

/-! # Theorems -/

/-! ## Grading-loop characterization -/

theorem gradeDocsGo_eq_filter (g : RelevanceGrader) (q : String) :
    ∀ ds : List Record, gradeDocsGo g q ds = ds.filter (keepDoc g q) := by
  intro ds
  induction ds with
  | nil => rfl
  | cons d ds ih =>
      simp only [gradeDocsGo, keepDoc, List.filter_cons]
      by_cases hc : docContent d = ""
      · simp [hc, ih]
      · simp only [hc, if_neg hc]
        cases hg : g q (docContent d) with
        | ok score =>
            by_cases hs : score = "yes"
            · simp [hs, ih]
            · simp [hs, ih, beq_iff_eq]
        | error e => simp [ih]

theorem grade_documents_filter (g : RelevanceGrader) (q : String)
    (ds : List Record) :
    grade_documents_tool ds q (some g) = ds.filter (keepDoc g q) := by
  cases ds with
  | nil => rfl
  | cons d ds =>
      simp [grade_documents_tool, gradeDocsGo_eq_filter]

theorem keepDoc_true_iff (g : RelevanceGrader) (q : String) (d : Record) :
    keepDoc g q d = true ↔
      docContent d ≠ "" ∧
        (g q (docContent d) = Except.ok "yes" ∨
          ∃ e, g q (docContent d) = Except.error e) := by
  unfold keepDoc
  by_cases hc : docContent d = ""
  · simp [hc]
  · simp only [hc, if_neg hc]
    cases hg : g q (docContent d) with
    | ok score => simp [beq_iff_eq, hg, hc]
    | error e => simp [hg, hc]

/-! ## Agent-loop helper lemmas -/

theorem prefix_stepHistory (tools : ToolExec) (hist : List Msg) (resp : Msg) :
    hist <+: stepHistory tools hist resp := by
  unfold stepHistory
  exact (List.prefix_append hist [resp]).trans
    (List.prefix_append (hist ++ [resp]) _)

theorem runLoop_prefix (model : Model) (tools : ToolExec) :
    ∀ (fuel : Nat) (hist h' : List Msg),
      runLoop model tools fuel hist = some h' → hist <+: h' := by
  intro fuel
  induction fuel with
  | zero => intro hist h' h; simp [runLoop] at h
  | succ f ih =>
      intro hist h' h
      unfold runLoop at h
      by_cases he : (model hist).tool_calls.isEmpty
      · simp only [he, if_pos] at h
        injection h with h
        exact h ▸ List.prefix_append hist _
      · simp only [he, if_neg, Bool.false_eq_true, not_false_iff] at h
        exact (prefix_stepHistory tools hist (model hist)).trans (ih _ _ h)

theorem loopInvocations_extend (model : Model) (tools : ToolExec) :
    ∀ (fuel : Nat) (hist : List Msg),
      ∀ x ∈ loopInvocations model tools fuel hist, hist <+: x := by
  intro fuel
  induction fuel with
  | zero => intro hist x hx; simp [loopInvocations] at hx
  | succ f ih =>
      intro hist x hx
      unfold loopInvocations at hx
      by_cases he : (model hist).tool_calls.isEmpty
      · simp only [he, if_pos, List.mem_singleton] at hx
        exact hx ▸ List.prefix_refl hist
      · simp only [he, if_neg, Bool.false_eq_true, not_false_iff,
          List.mem_cons] at hx
        rcases hx with rfl | hx
        · exact List.prefix_refl x
        · exact (prefix_stepHistory tools hist (model hist)).trans (ih _ _ hx)

theorem loopInvocations_chain (model : Model) (tools : ToolExec) :
    ∀ (fuel : Nat) (hist : List Msg),
      List.Chain' (· <+: ·) (loopInvocations model tools fuel hist) := by
  intro fuel
  induction fuel with
  | zero => intro hist; simp [loopInvocations]
  | succ f ih =>
      intro hist
      unfold loopInvocations
      by_cases he : (model hist).tool_calls.isEmpty
      · simp [he]
      · simp only [he, if_neg, Bool.false_eq_true, not_false_iff]
        refine List.chain'_cons'.mpr ⟨?_, ih _⟩
        intro y hy
        exact (prefix_stepHistory tools hist (model hist)).trans
          (loopInvocations_extend model tools f _ y
            (List.mem_of_mem_head? hy))

theorem allResolved_stepHistory (tools : ToolExec) (hist : List Msg)
    (resp : Msg) (h : allResolved hist) :
    allResolved (stepHistory tools hist resp) := by
  intro m hm c hc
  unfold stepHistory at hm
  rw [List.append_assoc, List.mem_append] at hm
  rcases hm with hm | hm
  · obtain ⟨t, ht, htid⟩ := h m hm c hc
    exact ⟨t, by
      unfold stepHistory
      rw [List.append_assoc, List.mem_append]
      exact Or.inl ht, htid⟩
  · rw [List.mem_append] at hm
    rcases hm with hm | hm
    · rw [List.mem_singleton] at hm
      subst hm
      refine ⟨execToolCall tools c, ?_, rfl⟩
      unfold stepHistory
      rw [List.append_assoc, List.mem_append, List.mem_append]
      exact Or.inr (Or.inr (List.mem_map_of_mem _ hc))
    · obtain ⟨c', _, rfl⟩ := List.mem_map.mp hm
      simp [execToolCall] at hc

theorem loopInvocations_allResolved (model : Model) (tools : ToolExec) :
    ∀ (fuel : Nat) (hist : List Msg), allResolved hist →
      ∀ x ∈ loopInvocations model tools fuel hist, allResolved x := by
  intro fuel
  induction fuel with
  | zero => intro hist _ x hx; simp [loopInvocations] at hx
  | succ f ih =>
      intro hist hres x hx
      unfold loopInvocations at hx
      by_cases he : (model hist).tool_calls.isEmpty
      · simp only [he, if_pos, List.mem_singleton] at hx
        exact hx ▸ hres
      · simp only [he, if_neg, Bool.false_eq_true, not_false_iff,
          List.mem_cons] at hx
        rcases hx with rfl | hx
        · exact hres
        · exact ih _ (allResolved_stepHistory tools hist (model hist) hres)
            x hx

theorem assistantCount_stepHistory (tools : ToolExec) (hist : List Msg)
    (resp : Msg) (hrole : resp.role = MRole.assistant) :
    assistantCount (stepHistory tools hist resp) = assistantCount hist + 1 := by
  unfold stepHistory assistantCount
  rw [List.countP_append, List.countP_append]
  have h1 : List.countP (fun m => m.role == MRole.assistant) [resp] = 1 := by
    simp [List.countP_cons, hrole]
  have h2 : List.countP (fun m => m.role == MRole.assistant)
      (resp.tool_calls.map (execToolCall tools)) = 0 := by
    rw [List.countP_eq_zero]
    intro t ht
    obtain ⟨c, _, rfl⟩ := List.mem_map.mp ht
    simp [execToolCall]
  omega

theorem runLoop_reaches_terminal (rs : List Msg) (d : Msg)
    (tools : ToolExec) :
    ∀ (i fuel : Nat) (h0 : List Msg), i < fuel →
      (∀ j < i, (rs.getD (assistantCount h0 + j) d).tool_calls ≠ []) →
      (rs.getD (assistantCount h0 + i) d).tool_calls = [] →
      ∃ h' m, runLoop (modelFromList rs d) tools fuel h0 = some h' ∧
        h'.getLast? = some m ∧ m.tool_calls = [] := by
  intro i
  induction i with
  | zero =>
      intro fuel h0 hfuel _ hterm
      obtain ⟨f, rfl⟩ := Nat.exists_eq_succ_of_ne_zero (Nat.pos_iff_ne_zero.mp hfuel)
      have hresp : (modelFromList rs d h0).tool_calls = [] := by
        simpa [modelFromList] using hterm
      refine ⟨h0 ++ [modelFromList rs d h0], modelFromList rs d h0, ?_, ?_, hresp⟩
      · unfold runLoop
        simp [hresp]
      · simp
  | succ k ih =>
      intro fuel h0 hfuel hpre hterm
      obtain ⟨f, rfl⟩ := Nat.exists_eq_succ_of_ne_zero
        (Nat.pos_iff_ne_zero.mp (Nat.lt_of_le_of_lt (Nat.zero_le _) hfuel))
      have hresp : (modelFromList rs d h0).tool_calls ≠ [] := by
        have := hpre 0 (Nat.succ_pos k)
        simpa [modelFromList] using this
      have hrole : (modelFromList rs d h0).role = MRole.assistant := rfl
      have hcount := assistantCount_stepHistory tools h0 (modelFromList rs d h0) hrole
      have hrec := ih f (stepHistory tools h0 (modelFromList rs d h0))
        (Nat.lt_of_succ_lt_succ hfuel)
        (by
          intro j hj
          rw [hcount]
          have := hpre (j + 1) (Nat.succ_lt_succ hj)
          simpa [Nat.add_assoc, Nat.add_comm 1 j] using this)
        (by
          rw [hcount]
          simpa [Nat.add_assoc, Nat.add_comm 1 k] using hterm)
      obtain ⟨h', m, hrun, hlast, hm⟩ := hrec
      refine ⟨h', m, ?_, hlast, hm⟩
      unfold runLoop
      simpa [List.isEmpty_iff, hresp] using hrun

theorem runLoop_tool_looping (model : Model) (tools : ToolExec)
    (h : ∀ hist, (model hist).tool_calls ≠ []) :
    ∀ (fuel : Nat) (hist : List Msg),
      runLoop model tools fuel hist = none := by
  intro fuel
  induction fuel with
  | zero => intro hist; rfl
  | succ f ih =>
      intro hist
      unfold runLoop
      simp [List.isEmpty_iff, h hist, ih]

/-! ## Claim C2 -/

/-- C2: invoking any retrieval tool whose backend dependency is not
configured (no vector store; neither QA chain nor graph; no web-search
client) returns the empty list for every query; the embedded tools are
total functions into lists, so no exception reaches the caller. -/
theorem c2_tools_fail_open_without_backend (query : String)
    (g : Option Graph) :
    hybrid_search_tool none g query = [] ∧
    structured_query_tool none none query = [] ∧
    web_search_tool none query = [] :=
  ⟨rfl, rfl, rfl⟩

/-! ## Claim C4 -/

/-- C4: the answer-quality verdict taxonomy, with the hallucination check
short-circuiting before the usefulness check: a "no" hallucination score
yields "non supportato" for every usefulness grader; "yes" then "no" yields
"non utile"; "yes" and "yes" yields "utile"; a missing grader on either
side defaults to "utile". -/
theorem c4_grade_answer_taxonomy (generation question : String)
    (documents : List Record) (hg : HallucinationGrader)
    (ug : UsefulnessGrader) (ho : Option HallucinationGrader)
    (uo : Option UsefulnessGrader) :
    (hg (docContext documents) generation = Except.ok "no" →
      grade_answer_tool generation documents question (some hg) (some ug) =
        "non supportato") ∧
    (hg (docContext documents) generation = Except.ok "yes" →
      ug question generation = Except.ok "no" →
      grade_answer_tool generation documents question (some hg) (some ug) =
        "non utile") ∧
    (hg (docContext documents) generation = Except.ok "yes" →
      ug question generation = Except.ok "yes" →
      grade_answer_tool generation documents question (some hg) (some ug) =
        "utile") ∧
    (grade_answer_tool generation documents question none uo = "utile") ∧
    (grade_answer_tool generation documents question ho none = "utile") := by
  refine ⟨?_, ?_, ?_, ?_, ?_⟩
  · intro h
    simp [grade_answer_tool, h]
  · intro h1 h2
    simp [grade_answer_tool, h1, h2]
  · intro h1 h2
    simp [grade_answer_tool, h1, h2]
  · cases uo <;> rfl
  · cases ho <;> rfl

/-- C4 witness: with a hallucination grader scoring "no" and a usefulness
grader scoring "yes", the verdict is "non supportato". -/
theorem c4_grade_answer_taxonomy_witness :
    noGrader (docContext [testDoc]) "ans" = Except.ok "no" ∧
    grade_answer_tool "ans" [testDoc] "q" (some noGrader) (some yesGrader) =
      "non supportato" :=
  ⟨rfl,
   (c4_grade_answer_taxonomy "ans" "q" [testDoc] noGrader yesGrader
      none none).1 rfl⟩

/-! ## Claim C3 -/

/-- C3: the structured-query tool returns flat field-to-value records: on
primary-chain success, the single question/result record; when the primary
chain raises and the graph is available, exactly the records of the
fallback query, unmodified; the fallback substring-match semantics caps
results at 5; and the empty list on total failure (no backends, or a
fallback that raises). -/
theorem c3_structured_query_fallback (query err : String) (g : Graph)
    (entities : List Entity) (chain : QAChain) :
    (structured_query_tool none none query = []) ∧
    (∀ res, chain query = Except.ok res →
      structured_query_tool (some chain) (some g) query =
        [[("question", Val.s query), ("result", Val.s res)]]) ∧
    (∀ rs, g.fallback query = Except.ok rs →
      structured_query_tool (some (fun _ => Except.error err)) (some g)
        query = rs) ∧
    (∀ e, g.fallback query = Except.error e →
      structured_query_tool (some (fun _ => Except.error err)) (some g)
        query = []) ∧
    (structured_query_tool (some (fun _ => Except.error err))
        (some ⟨g.related, fun q => Except.ok (substringFallback entities q)⟩)
        query = substringFallback entities query) ∧
    ((substringFallback entities query).length ≤ 5) := by
  refine ⟨rfl, ?_, ?_, ?_, ?_, ?_⟩
  · intro res h
    simp [structured_query_tool, h]
  · intro rs h
    simp [structured_query_tool, h]
  · intro e h
    simp [structured_query_tool, h]
  · simp [structured_query_tool]
  · unfold substringFallback
    exact List.length_take_le _ _

/-- C3 witness: with a raising primary chain and a mocked graph returning
`[testRecord]` for the fallback query, the tool returns exactly that
single record. -/
theorem c3_structured_query_fallback_witness :
    testGraph.fallback "Test" = Except.ok [testRecord] ∧
    structured_query_tool (some failingChain) (some testGraph) "Test" =
      [testRecord] :=
  ⟨rfl,
   (c3_structured_query_fallback "Test" "translation failed" testGraph []
      failingChain).2.2.1 [testRecord] rfl⟩

/-! ## Claim C5 -/

/-- C5: the hybrid-search tool returns the k=3 matches of the combined
search, each as a document with the match's content and metadata; a match
whose metadata carries a non-empty document identifier is enriched with
the first record of the one-hop related-context query; a raised enrichment
query is swallowed, keeping the base result; and the one-match/one-record
scenario yields exactly one document whose related context equals the
record. -/
theorem c5_hybrid_search (query : String) (vs : VectorStore) (g : Graph)
    (og : Option Graph) :
    (∀ results, vs.search query 3 = Except.ok results →
      (hybrid_search_tool (some vs) og query).map
          (fun d => (d.content, d.metadata)) =
        results.map (fun d => (d.page_content, d.metadata))) ∧
    (∀ d : VDoc, docIdOf d.metadata ≠ "" →
      ∀ r rest, g.related (docIdOf d.metadata) = Except.ok (r :: rest) →
        enhanceDoc (some g) d = ⟨d.page_content, d.metadata, some r⟩) ∧
    (∀ d : VDoc, ∀ e, g.related (docIdOf d.metadata) = Except.error e →
      enhanceDoc (some g) d = ⟨d.page_content, d.metadata, none⟩) ∧
    (∀ c r, vs.search query 3 = Except.ok [⟨c, [("id", "doc1")]⟩] →
      g.related "doc1" = Except.ok [r] →
      hybrid_search_tool (some vs) (some g) query =
        [⟨c, [("id", "doc1")], some r⟩]) := by
  refine ⟨?_, ?_, ?_, ?_⟩
  · intro results h
    simp [hybrid_search_tool, h, enhanceDoc]
  · intro d hid r rest h
    simp [enhanceDoc, relatedContext, hid, h]
  · intro d e h
    by_cases hid : docIdOf d.metadata = ""
    · simp [enhanceDoc, relatedContext, hid]
    · simp [enhanceDoc, relatedContext, hid, h]
  · intro c r h1 h2
    have hid : docIdOf [("id", "doc1")] = "doc1" := rfl
    simp [hybrid_search_tool, h1, enhanceDoc, relatedContext, hid, h2]

/-- C5 witness: the mocked index returns one match with metadata
`{"id": "doc1"}` and the mocked graph one related-entity record; the tool
yields exactly one document whose related context is that record. -/
theorem c5_hybrid_search_witness :
    testStore.search "q" 3 = Except.ok [⟨"some text", [("id", "doc1")]⟩] ∧
    enrichGraph.related "doc1" = Except.ok [relRecord] ∧
    hybrid_search_tool (some testStore) (some enrichGraph) "q" =
      [⟨"some text", [("id", "doc1")], some relRecord⟩] :=
  ⟨rfl, rfl,
   (c5_hybrid_search "q" testStore enrichGraph none).2.2.2 "some text"
     relRecord rfl rfl⟩

/-! ## Claim C6 -/

/-- C6: with a configured relevance grader the grading tool returns a
sublist of the input containing every document graded "yes" and every
document whose grading raised (fail-open toward inclusion), and nothing
else; with no grader the input is returned unchanged. -/
theorem c6_grade_documents (g : RelevanceGrader) (q : String)
    (docs : List Record) :
    (grade_documents_tool docs q none = docs) ∧
    (grade_documents_tool docs q (some g)).Sublist docs ∧
    (∀ d ∈ docs, docContent d ≠ "" → g q (docContent d) = Except.ok "yes" →
      d ∈ grade_documents_tool docs q (some g)) ∧
    (∀ d ∈ docs, docContent d ≠ "" →
      (∃ e, g q (docContent d) = Except.error e) →
      d ∈ grade_documents_tool docs q (some g)) ∧
    (∀ d ∈ grade_documents_tool docs q (some g),
      d ∈ docs ∧ docContent d ≠ "" ∧
        (g q (docContent d) = Except.ok "yes" ∨
          ∃ e, g q (docContent d) = Except.error e)) := by
  refine ⟨rfl, ?_, ?_, ?_, ?_⟩
  · rw [grade_documents_filter]
    exact List.filter_sublist docs
  · intro d hd hc hy
    rw [grade_documents_filter]
    exact List.mem_filter.mpr ⟨hd, (keepDoc_true_iff g q d).mpr ⟨hc, Or.inl hy⟩⟩
  · intro d hd hc he
    rw [grade_documents_filter]
    exact List.mem_filter.mpr ⟨hd, (keepDoc_true_iff g q d).mpr ⟨hc, Or.inr he⟩⟩
  · intro d hd
    rw [grade_documents_filter] at hd
    obtain ⟨hm, hk⟩ := List.mem_filter.mp hd
    obtain ⟨hc, hrest⟩ := (keepDoc_true_iff g q d).mp hk
    exact ⟨hm, hc, hrest⟩

/-- C6 witness: a non-empty document graded "yes" is kept. -/
theorem c6_grade_documents_witness :
    testDoc ∈ [testDoc, emptyDoc] ∧ docContent testDoc ≠ "" ∧
    yesGrader "q" (docContent testDoc) = Except.ok "yes" ∧
    testDoc ∈ grade_documents_tool [testDoc, emptyDoc] "q" (some yesGrader) := by
  have h1 : testDoc ∈ [testDoc, emptyDoc] := List.mem_cons_self _ _
  have h2 : docContent testDoc ≠ "" := by decide
  exact ⟨h1, h2, rfl,
    (c6_grade_documents yesGrader "q" [testDoc, emptyDoc]).2.2.1 testDoc
      h1 h2 rfl⟩

/-! ## Claim C10 -/

/-- C10: with a configured grader, a document whose extracted text is
empty under both the "content" and "page_content" keys is silently
dropped: it never appears in the output, and the output does not depend on
the grader's behaviour on empty content (the grader is never consulted
there). -/
theorem c10_empty_content_dropped (g g2 : RelevanceGrader) (q : String)
    (docs : List Record) (d : Record) :
    (d ∈ docs → docContent d = "" →
      d ∉ grade_documents_tool docs q (some g)) ∧
    ((∀ c, c ≠ "" → g q c = g2 q c) →
      grade_documents_tool docs q (some g) =
        grade_documents_tool docs q (some g2)) := by
  constructor
  · intro _ hc hmem
    rw [grade_documents_filter] at hmem
    have hk := (List.mem_filter.mp hmem).2
    exact ((keepDoc_true_iff g q d).mp hk).1 hc
  · intro hagree
    rw [grade_documents_filter, grade_documents_filter]
    apply List.filter_congr
    intro x _
    by_cases hc : docContent x = ""
    · simp [keepDoc, hc]
    · simp [keepDoc, hc, hagree (docContent x) hc]

/-- C10 witness: the empty-content document is dropped from the output
even though the grader scores everything "yes". -/
theorem c10_empty_content_dropped_witness :
    emptyDoc ∈ [emptyDoc] ∧ docContent emptyDoc = "" ∧
    emptyDoc ∉ grade_documents_tool [emptyDoc] "q" (some yesGrader) := by
  have h1 : emptyDoc ∈ [emptyDoc] := List.mem_cons_self _ _
  have h2 : docContent emptyDoc = "" := by decide
  exact ⟨h1, h2,
    (c10_empty_content_dropped yesGrader yesGrader "q" [emptyDoc]
      emptyDoc).1 h1 h2⟩

/-! ## Claim C7 -/

/-- C7: `ask` is a total function into answer strings (no exception
propagates): a raising loop yields the fixed generic error string; an
empty final history, or a last message from which no content can be
extracted, yields the fixed insufficient-information string; otherwise the
extracted content is returned. -/
theorem c7_ask_never_raises (run : String → Except String (List RawMsg))
    (q : String) :
    (∀ e, run q = Except.error e → ask run q = genericErrorMsg) ∧
    (run q = Except.ok [] → ask run q = insufficientMsg) ∧
    (∀ msgs, run q = Except.ok msgs → extractAnswer msgs = none →
      ask run q = insufficientMsg) ∧
    (∀ msgs c, run q = Except.ok msgs → extractAnswer msgs = some c →
      ask run q = c) := by
  refine ⟨?_, ?_, ?_, ?_⟩
  · intro e h
    simp [ask, h]
  · intro h
    simp [ask, h, extractAnswer]
  · intro msgs h1 h2
    simp [ask, h1, h2]
  · intro msgs c h1 h2
    simp [ask, h1, h2]

/-- C7 witness: a loop whose construction raises makes `ask` return the
fixed generic error string. -/
theorem c7_ask_never_raises_witness :
    errRun "q" = Except.error "infrastructure failure" ∧
    ask errRun "q" = genericErrorMsg :=
  ⟨rfl, (c7_ask_never_raises errRun "q").1 "infrastructure failure" rfl⟩

/-! ## Claim C9 -/

/-- C9: when the loop terminates with a final message of content "X",
`ask` returns exactly "X", both for the structured-message representation
and for the plain-mapping representation of that message. -/
theorem c9_ask_extracts_content (run : String → Except String (List RawMsg))
    (q X : String) (ms : List RawMsg) :
    (run q = Except.ok (ms ++ [RawMsg.structuredMsg X]) → ask run q = X) ∧
    (run q = Except.ok (ms ++ [RawMsg.mappingMsg [("content", X)]]) →
      ask run q = X) := by
  constructor
  · intro h
    simp [ask, h, extractAnswer, List.getLast?_concat]
  · intro h
    simp [ask, h, extractAnswer, List.getLast?_concat]

/-- C9 witness: both representations of a final message with content "X"
make `ask` return exactly "X". -/
theorem c9_ask_extracts_content_witness :
    okRunStructured "question" =
      Except.ok ([] ++ [RawMsg.structuredMsg "X"]) ∧
    okRunMapping "question" =
      Except.ok ([] ++ [RawMsg.mappingMsg [("content", "X")]]) ∧
    ask okRunStructured "question" = "X" ∧
    ask okRunMapping "question" = "X" :=
  ⟨rfl, rfl,
   (c9_ask_extracts_content okRunStructured "question" "X" []).1 rfl,
   (c9_ask_extracts_content okRunMapping "question" "X" []).2 rfl⟩

/-! ## Claim C1 (corrected) -/

/-- C1 counterexample: with iteration cap 25, the finite response sequence
`loopTrace` — 25 tool-requesting turns followed by a terminal one, so its
last response carries zero tool-call requests — exhausts the cap: the run
stops with the recursion-limit outcome (`none`) and never reaches a
terminal Message, refuting the claim as stated. -/
theorem c1_counterexample :
    loopTrace.getLast? = some termResp ∧ termResp.tool_calls = [] ∧
    runLoop (modelFromList loopTrace termResp) noTools 25 [userMsg "q"] =
      none := by
  refine ⟨?_, rfl, ?_⟩
  · rfl
  · rfl

/-- C1 (amended): if the model emits a tool-call-free response within the
iteration cap (the recursion limit of the workflow driver; the repository
itself sets no explicit cap), the Agent Loop reaches a terminal
tool-call-free Message; and against a model that keeps requesting tools
the cap still forces the loop to halt within the cap, with the
recursion-limit outcome instead of a terminal Message. -/
theorem c1_loop_termination (rs : List Msg) (d : Msg) (tools : ToolExec)
    (model : Model) (fuel i : Nat) (h0 : List Msg)
    (hfuel : i < fuel)
    (hpre : ∀ j < i, (rs.getD (assistantCount h0 + j) d).tool_calls ≠ [])
    (hterm : (rs.getD (assistantCount h0 + i) d).tool_calls = []) :
    (∃ h' m, runLoop (modelFromList rs d) tools fuel h0 = some h' ∧
      h'.getLast? = some m ∧ m.tool_calls = []) ∧
    ((∀ hist, (model hist).tool_calls ≠ []) →
      ∀ cap start, runLoop model tools cap start = none) :=
  ⟨runLoop_reaches_terminal rs d tools i fuel h0 hfuel hpre hterm,
   fun h cap start => runLoop_tool_looping model tools h cap start⟩

/-- C1 witness: a model answering terminally at once reaches a terminal
message within cap 1, and a model that always requests a tool is cut off
at any cap. -/
theorem c1_loop_termination_witness :
    (0 < 1) ∧
    (∀ j < 0, (([termResp] : List Msg).getD
        (assistantCount [userMsg "q"] + j) termResp).tool_calls ≠ []) ∧
    (([termResp] : List Msg).getD
        (assistantCount [userMsg "q"] + 0) termResp).tool_calls = [] ∧
    ((∃ h' m, runLoop (modelFromList [termResp] termResp) noTools 1
        [userMsg "q"] = some h' ∧ h'.getLast? = some m ∧
        m.tool_calls = []) ∧
      ((∀ hist, ((fun _ => toolReq : Model) hist).tool_calls ≠ []) →
        ∀ cap start, runLoop (fun _ => toolReq) noTools cap start = none)) := by
  have h1 : (0 : Nat) < 1 := Nat.zero_lt_one
  have h2 : ∀ j < 0, (([termResp] : List Msg).getD
      (assistantCount [userMsg "q"] + j) termResp).tool_calls ≠ [] := by
    intro j hj
    exact absurd hj (Nat.not_lt_zero j)
  have h3 : (([termResp] : List Msg).getD
      (assistantCount [userMsg "q"] + 0) termResp).tool_calls = [] := rfl
  exact ⟨h1, h2, h3,
    c1_loop_termination [termResp] termResp noTools (fun _ => toolReq) 1 0
      [userMsg "q"] h1 h2 h3⟩

/-! ## Claim C8 -/

/-- C8: across a run of the Agent Loop, the histories seen by successive
Reasoning invocations form a chain under the prefix order (messages are
only appended, never removed or replaced, by the add_messages reducer
embedded as append), every tool-call request of an assistant turn has its
correlated tool result in the history before the Reasoning Node runs
again, and the final history extends the initial one. -/
theorem c8_history_monotonicity (model : Model) (tools : ToolExec)
    (fuel : Nat) (h0 : List Msg) (hres : allResolved h0) :
    List.Chain' (· <+: ·) (loopInvocations model tools fuel h0) ∧
    (∀ x ∈ loopInvocations model tools fuel h0, h0 <+: x) ∧
    (∀ x ∈ loopInvocations model tools fuel h0, allResolved x) ∧
    (∀ h', runLoop model tools fuel h0 = some h' → h0 <+: h') :=
  ⟨loopInvocations_chain model tools fuel h0,
   loopInvocations_extend model tools fuel h0,
   loopInvocations_allResolved model tools fuel h0 hres,
   fun h' h => runLoop_prefix model tools fuel h0 h' h⟩

/-- C8 witness: a run seeded with one user message (trivially resolved),
driven by one tool round then a terminal answer. -/
theorem c8_history_monotonicity_witness :
    allResolved [userMsg "q"] ∧
    (List.Chain' (· <+: ·) (loopInvocations
        (modelFromList [toolReq, termResp] termResp) noTools 5
        [userMsg "q"]) ∧
      (∀ x ∈ loopInvocations (modelFromList [toolReq, termResp] termResp)
          noTools 5 [userMsg "q"], [userMsg "q"] <+: x) ∧
      (∀ x ∈ loopInvocations (modelFromList [toolReq, termResp] termResp)
          noTools 5 [userMsg "q"], allResolved x) ∧
      (∀ h', runLoop (modelFromList [toolReq, termResp] termResp) noTools 5
          [userMsg "q"] = some h' → [userMsg "q"] <+: h')) := by
  have hres : allResolved [userMsg "q"] := by
    intro m hm c hc
    rw [List.mem_singleton] at hm
    subst hm
    simp [userMsg] at hc
  exact ⟨hres, c8_history_monotonicity
    (modelFromList [toolReq, termResp] termResp) noTools 5 [userMsg "q"]
    hres⟩

end GraphRAG
